import Mathlib

/-!
Verification of the link-adaptation engine of `scratch/multi-bss.cc`
(classes `TgaxResidentialPropagationLossModel` and `AutoMcsWifiManager`).

The C++ code is shallowly embedded: C++ `double` values are modelled as
exact rationals (`ℚ`), machine integers as `ℕ`/`ℤ`, and external ns-3
services (SNR-threshold computation, data-rate tables, tx-vector validity)
as function parameters gathered in an environment structure.  Fallible
paths (failed assertions, IEEE division 0/0 producing NaN followed by an
int cast) are modelled with `Option`.
-/

/-- Modulation classes appearing in the manager's dispatch
(`WIFI_MOD_CLASS_*`).  The manager only distinguishes HT, VHT, HE,
DSSS/HR-DSSS and "everything else" (OFDM/ERP-OFDM). -/
inductive ModClass where
  | dsss
  | hrDsss
  | ofdm
  | erpOfdm
  | ht
  | vht
  | he
deriving DecidableEq, Repr

/-- Model of ns-3 `WifiMode`.  A mode is identified by its modulation class
and, for MCS modes, its MCS index (`GetMcsValue`); for non-MCS legacy rates
`mcsValue` doubles as the identifying rate code so that distinct modes
compare unequal, matching `WifiMode` identity comparison. -/
structure WifiModeM where
  modClass : ModClass
  mcsValue : ℕ
deriving DecidableEq, Repr

/-- Model of `AutoMcsWifiRemoteStation` together with the per-station
capability accessors (`GetChannelWidth(st)`, `GetHtSupported(st)`, ...)
that `WifiRemoteStationManager` exposes for the remote station. -/
structure Station where
  lastSnrObserved : ℚ
  lastChannelWidthObserved : ℕ
  lastNssObserved : ℕ
  lastSnrCached : ℚ
  lastNss : ℕ
  lastMode : WifiModeM
  lastChannelWidth : ℕ
  mcsSupported : List WifiModeM
  nonHtSupported : List WifiModeM
  htSupported : Bool
  vhtSupported : Bool
  heSupported : Bool
  shortGiSupported : Bool
  guardIntervalNs : ℕ
  nSupportedStreams : ℕ
  channelWidth : ℕ
deriving DecidableEq

/-- Manager-side configuration and the external ns-3 services the manager
calls: the SNR-threshold lookup (as the total function it computes on the
non-fatal path; the fatal rebuild-and-miss path is modelled separately by
`GetSnrThreshold`), `WifiMode::GetDataRate`, `WifiTxVector::IsValid`,
`WifiPhy::GetTxBandwidth`, and the default modes. -/
structure Env where
  htSupported : Bool
  vhtSupported : Bool
  heSupported : Bool
  shortGiSupported : Bool
  guardIntervalNs : ℕ
  maxTxStreams : ℕ
  autoMCS : Bool
  defaultMode : WifiModeM
  defaultModeForSta : WifiModeM
  threshold : WifiModeM → ℕ → ℕ → ℚ
  dataRate : WifiModeM → ℕ → ℕ → ℕ → ℕ
  isValidVector : WifiModeM → ℕ → ℕ → ℕ → Bool
  txBandwidth : WifiModeM → ℕ → ℕ
  basicModes : List WifiModeM

/-- Source constant `CACHE_INITIAL_VALUE` (the cache sentinel). -/
def CACHE_INITIAL_VALUE : ℚ := -100

/-- Model of `AutoMcsWifiManager::GetChannelWidthForNonHtMode`: 22 MHz for
DSSS/HR-DSSS modes, 20 MHz otherwise. -/
def GetChannelWidthForNonHtMode (mode : WifiModeM) : ℕ :=
  if mode.modClass = ModClass.dsss ∨ mode.modClass = ModClass.hrDsss then 22 else 20

/-- Model of `AutoMcsWifiManager::GetLastObservedSnr`: start from the raw
last observed SNR, divide by the width ratio when the requested width
differs from the observed one, then divide by the NSS ratio when the
requested NSS differs from the observed one. -/
def GetLastObservedSnr (station : Station) (channelWidth : ℕ) (nss : ℕ) : ℚ :=
  let snr := station.lastSnrObserved
  let snr :=
    if channelWidth ≠ station.lastChannelWidthObserved then
      snr / ((channelWidth : ℚ) / (station.lastChannelWidthObserved : ℚ))
    else snr
  if nss ≠ station.lastNssObserved then
    snr / ((nss : ℚ) / (station.lastNssObserved : ℚ))
  else snr

/-- Model of ns-3 `MobilityBuildingInfo` as read by the propagation model:
indoor flag, floor number and room indices. -/
structure MobilityBuildingInfo where
  indoor : Bool
  floorNumber : ℤ
  roomX : ℤ
  roomY : ℤ
deriving DecidableEq

/-- Model of `TgaxResidentialPropagationLossModel::DoCalcRxPower`.  The
distance between the two mobility models is passed directly (it is zero
exactly when the positions coincide).  The logarithmic TGax path-loss
formula of the non-blocked branch is abstracted as the parameter
`pathlossDb distance floors walls`, since the claims under verification
depend only on the branch structure, not on the transcendental value. -/
def DoCalcRxPower (pathlossDb : ℚ → ℕ → ℕ → ℚ) (txPowerDbm : ℚ) (dist : ℚ)
    (aInfo bInfo : Option MobilityBuildingInfo) : ℚ :=
  if dist = 0 then txPowerDbm
  else
    let distance := max 1 dist
    match aInfo, bInfo with
    | some ai, some bi =>
      if ¬ai.indoor ∨ ¬bi.indoor then 0
      else
        let floors := (ai.floorNumber - bi.floorNumber).natAbs
        let walls := (ai.roomX - bi.roomX).natAbs + (ai.roomY - bi.roomY).natAbs
        txPowerDbm - pathlossDb distance floors walls
    | _, _ => txPowerDbm - pathlossDb distance 0 0

/-- A tested combination in one of the manager's search loops: `ok` is the
admission test (threshold strictly below the SNR estimate), `rate` the
quantity being maximised, `payload` the data retained when the candidate
wins. -/
structure SCand (α : Type) (β : Type) where
  ok : Bool
  rate : β
  payload : α
deriving DecidableEq

/-- The accumulator loop shared by the manager's searches: scan the tested
combinations in order, replacing the current best whenever a combination
passes its admission test and strictly exceeds the best value so far
(`dataRate > bestRate && threshold < snr` in `DoGetDataTxVector`;
`threshold > maxThreshold && threshold < m_lastSnrObserved` in
`DoGetRtsTxVector`). -/
def runSel {α β : Type} [LinearOrder β] : List (SCand α β) → β → α → β × α
  | [], best, cur => (best, cur)
  | c :: t, best, cur =>
    if c.ok ∧ best < c.rate then runSel t c.rate c.payload else runSel t best cur

/-- Rates of the admissible (qualifying) combinations, in enumeration
order. -/
def qualRates {α β : Type} (l : List (SCand α β)) : List β :=
  (l.filter (fun c => c.ok)).map (fun c => c.rate)

/-- Maximum element of a list, `none` for the empty list. -/
def listMax {β : Type} [LinearOrder β] : List β → Option β
  | [] => none
  | x :: xs =>
    some (match listMax xs with
          | none => x
          | some m => max x m)

/-- Specification-side selection, following the spec's words: among all
qualifying candidates, the one with the highest value; ties are broken by
enumeration order (first found wins). -/
def specSelect {α β : Type} [LinearOrder β] (l : List (SCand α β)) :
    Option (SCand α β) :=
  match listMax (qualRates l) with
  | none => none
  | some m => l.find? (fun c => c.ok && decide (c.rate = m))

/-- Guard interval used by the data search for HT and VHT modes: the longer
of the station's and the manager's short-GI settings (400 ns if short GI is
supported, else 800 ns). -/
def giHtVht (E : Env) (st : Station) : ℕ :=
  max (if st.shortGiSupported then 400 else 800) (if E.shortGiSupported then 400 else 800)

/-- Guard interval used by the data search for HE modes: the longer of the
station's and the manager's configured guard intervals. -/
def giHe (E : Env) (st : Station) : ℕ := max st.guardIntervalNs E.guardIntervalNs

/-- NSS values `1, 2, ..., k` enumerated ascending, as in the source's
`for (nss = 1; nss <= k; nss++)` loops. -/
def nssRange (k : ℕ) : List ℕ := (List.range k).map (fun i => i + 1)

/-- One tested combination of the data search: admission requires the SNR
threshold for (mode, nss, width) to be strictly below the link's estimated
SNR for that width/NSS; the maximised quantity is the data rate.  The
payload also carries the width the threshold was evaluated at (recoverable
data for the statements; the source keeps only mode and NSS). -/
def mkDataCand (E : Env) (st : Station) (w : ℕ) (m : WifiModeM) (nss gi : ℕ) :
    SCand (WifiModeM × ℕ × ℕ) ℕ :=
  { ok := decide (E.threshold m nss w < GetLastObservedSnr st w nss),
    rate := E.dataRate m w gi nss,
    payload := (m, nss, w) }

/-- Combinations tested for one supported MCS in the HT-capable branch of
`DoGetDataTxVector`, with the source's skip rules: HT modes are skipped
when both peers are VHT- or HE-capable and derive NSS from the MCS index;
VHT modes are skipped when both peers are HE-capable or not both
VHT-capable and iterate NSS ascending from 1; every other MCS is handled
by the trailing HE branch, which is skipped unless both peers are
HE-capable and iterates NSS ascending from 1.  Combinations failing
`WifiTxVector::IsValid` (or, for HT, the stream bound) are skipped. -/
def candForMcs (E : Env) (st : Station) (cw : ℕ) (m : WifiModeM) :
    List (SCand (WifiModeM × ℕ × ℕ) ℕ) :=
  match m.modClass with
  | ModClass.ht =>
    if (E.vhtSupported && st.vhtSupported) || (E.heSupported && st.heSupported) then []
    else
      let nss := m.mcsValue / 8 + 1
      if ¬E.isValidVector m cw nss (giHtVht E st) ∨
          min E.maxTxStreams st.nSupportedStreams < nss then []
      else [mkDataCand E st cw m nss (giHtVht E st)]
  | ModClass.vht =>
    if (E.heSupported && st.heSupported) || !(E.vhtSupported && st.vhtSupported) then []
    else
      (nssRange (min E.maxTxStreams st.nSupportedStreams)).filterMap (fun nss =>
        if E.isValidVector m cw nss (giHtVht E st) then
          some (mkDataCand E st cw m nss (giHtVht E st))
        else none)
  | _ =>
    if !(E.heSupported && st.heSupported) then []
    else
      (nssRange (min E.maxTxStreams st.nSupportedStreams)).filterMap (fun nss =>
        if E.isValidVector m cw nss (giHe E st) then
          some (mkDataCand E st cw m nss (giHe E st))
        else none)

/-- The full enumeration of the data search, in the source's deterministic
order: when both the manager and the station are HT-capable, the supported
MCS list in ascending index with `candForMcs` per mode; otherwise the
supported non-HT modes in ascending index at NSS 1 with each mode's non-HT
channel width (the non-HT branch leaves the tx vector's default 800 ns
guard interval). -/
def dataCands (E : Env) (st : Station) (cw : ℕ) :
    List (SCand (WifiModeM × ℕ × ℕ) ℕ) :=
  if E.htSupported && st.htSupported then
    st.mcsSupported.flatMap (candForMcs E st cw)
  else
    st.nonHtSupported.map (fun m =>
      mkDataCand E st (GetChannelWidthForNonHtMode m) m 1 800)

/-- Cache-hit test of `DoGetDataTxVector`: the cached SNR differs from the
sentinel, the observed SNR equals the cached SNR exactly, and the requested
channel width equals the cached width. -/
def cacheHit (st : Station) (channelWidth : ℕ) : Bool :=
  decide (st.lastSnrCached ≠ CACHE_INITIAL_VALUE) &&
  decide (st.lastSnrObserved = st.lastSnrCached) &&
  decide (channelWidth = st.lastChannelWidth)

/-- The converged-phase mode computation: average the recorded MCS indices,
round up, and build the HE mode of that index.  The source divides by
`choosenMCS.size()` with no emptiness guard: on an empty history the C++
double division is `0.0/0.0 = NaN`, whose ceiling and `int` cast do not
yield a valid MCS index, modelled as `none`; likewise an index outside
0..11 makes the `WifiMode("HeMcs"+k)` name lookup fail, modelled as
`none`. -/
def convergedMode (choosenMCS : List ℕ) : Option WifiModeM :=
  if choosenMCS.length = 0 then none
  else
    let average : ℚ := (choosenMCS.sum : ℚ) / (choosenMCS.length : ℚ)
    let idx : ℤ := Int.ceil average
    if 0 ≤ idx ∧ idx ≤ 11 then some ⟨ModClass.he, idx.toNat⟩ else none

/-- The transmission parameters the claims depend on, out of the returned
`WifiTxVector`. -/
structure TxResult where
  mode : WifiModeM
  nss : ℕ
  width : ℕ
deriving DecidableEq, Repr

/-- Model of `AutoMcsWifiManager::DoGetDataTxVector`.  Before the
10-second threshold: serve a cache hit from the cached mode/NSS, otherwise
run the search over `dataCands` with the accumulator loop (initial best
rate 0, initial mode `GetDefaultModeForSta`, initial NSS 1) and record the
decision and the observation that produced it into the cache.  At or after
the threshold: use `convergedMode` of the selection history, with no
search.  In all cases the station's `m_lastChannelWidth` is set to the
used channel width `min(GetChannelWidth(station), allowedWidth)`, and the
final vector's width is `GetTxBandwidth(mode, channelWidth)`. -/
def DoGetDataTxVector (E : Env) (choosenMCS : List ℕ) (st : Station)
    (allowedWidth : ℕ) (nowSeconds : ℚ) : Option (TxResult × Station) :=
  let channelWidth := min st.channelWidth allowedWidth
  if nowSeconds < 10 then
    if cacheHit st channelWidth then
      some ({ mode := st.lastMode, nss := st.lastNss,
              width := E.txBandwidth st.lastMode channelWidth },
            { st with lastChannelWidth := channelWidth })
    else
      let sel := runSel (dataCands E st channelWidth) 0
        (E.defaultModeForSta, 1, channelWidth)
      some ({ mode := sel.2.1, nss := sel.2.2.1,
              width := E.txBandwidth sel.2.1 channelWidth },
            { st with lastSnrCached := st.lastSnrObserved,
                      lastMode := sel.2.1, lastNss := sel.2.2.1,
                      lastChannelWidth := channelWidth })
  else
    match convergedMode choosenMCS with
    | none => none
    | some m =>
      some ({ mode := m, nss := 1, width := E.txBandwidth m channelWidth },
            { st with lastChannelWidth := channelWidth })

/-- Concrete non-HT environment used by witnesses: two supported legacy
OFDM modes with thresholds 1 and 4 and data rates proportional to the rate
code. -/
def envW : Env :=
  { htSupported := false, vhtSupported := false, heSupported := false,
    shortGiSupported := false, guardIntervalNs := 800, maxTxStreams := 1,
    autoMCS := false,
    defaultMode := ⟨ModClass.ofdm, 6⟩, defaultModeForSta := ⟨ModClass.ofdm, 6⟩,
    threshold := fun m _ _ => if m.mcsValue = 6 then 1 else 4,
    dataRate := fun m _ _ _ => m.mcsValue * 1000000,
    isValidVector := fun _ _ _ _ => true,
    txBandwidth := fun _ w => w,
    basicModes := [⟨ModClass.ofdm, 6⟩, ⟨ModClass.ofdm, 12⟩] }

/-- Concrete station used by witnesses: last observed SNR 10 at width 20
and NSS 1, cache unset. -/
def staW : Station :=
  { lastSnrObserved := 10, lastChannelWidthObserved := 20, lastNssObserved := 1,
    lastSnrCached := CACHE_INITIAL_VALUE, lastNss := 1,
    lastMode := ⟨ModClass.ofdm, 6⟩, lastChannelWidth := 0,
    mcsSupported := [], nonHtSupported := [⟨ModClass.ofdm, 6⟩, ⟨ModClass.ofdm, 12⟩],
    htSupported := false, vhtSupported := false, heSupported := false,
    shortGiSupported := false, guardIntervalNs := 800, nSupportedStreams := 1,
    channelWidth := 20 }

/-- Concrete station whose observed SNR (0, exactly the value `Reset`
leaves behind) is below every threshold of `envW`, so that no candidate
qualifies. -/
def staX : Station :=
  { lastSnrObserved := 0, lastChannelWidthObserved := 20, lastNssObserved := 1,
    lastSnrCached := CACHE_INITIAL_VALUE, lastNss := 1,
    lastMode := ⟨ModClass.ofdm, 6⟩, lastChannelWidth := 0,
    mcsSupported := [], nonHtSupported := [⟨ModClass.ofdm, 6⟩, ⟨ModClass.ofdm, 12⟩],
    htSupported := false, vhtSupported := false, heSupported := false,
    shortGiSupported := false, guardIntervalNs := 800, nSupportedStreams := 1,
    channelWidth := 20 }

/-- Capabilities the physical layer exposes to `BuildSnrThresholds`: the
supported non-MCS mode list, the MCS list, the channel width, the maximum
supported transmit spatial streams, the external BER-vs-SNR capability
`CalculateSnr(mode, nss, width, guardInterval)` at the manager's fixed BER
target, and `WifiMode::IsAllowed(width, nss)`. -/
structure Phy where
  modeList : List WifiModeM
  mcsList : List WifiModeM
  channelWidth : ℕ
  maxSupportedTxSpatialStreams : ℕ
  calcSnr : WifiModeM → ℕ → ℕ → ℕ → ℚ
  isAllowed : WifiModeM → ℕ → ℕ → Bool

/-- Channel widths visited by the source loop
`for (j = 20; j <= channelWidth; j *= 2)`, in ascending order. -/
def widthsUpTo (cw : ℕ) : List ℕ :=
  ((List.range cw).filter (fun i => 20 * 2 ^ i ≤ cw)).map (fun i => 20 * 2 ^ i)

/-- Model of `AutoMcsWifiManager::BuildSnrThresholds`: every supported
non-HT mode at NSS 1 with its non-HT width (default 800 ns guard
interval), and, when HT is supported, every MCS crossed with every
channel width up to the PHY's width — HT modes with NSS derived from the
MCS index (`mcs / 8 + 1`), VHT/HE modes with NSS from 1 up to the maximum
supported streams, keeping only combinations `IsAllowed` admits; the
guard interval is 400/800 ns by short-GI support for HT/VHT and the
configured HE guard interval otherwise.  Entries pair the computed
minimum SNR with the (mode, nss, width) key. -/
def BuildSnrThresholds (E : Env) (phy : Phy) : List (ℚ × WifiModeM × ℕ × ℕ) :=
  phy.modeList.map (fun mode =>
    (phy.calcSnr mode 1 (GetChannelWidthForNonHtMode mode) 800,
     mode, 1, GetChannelWidthForNonHtMode mode)) ++
  (if E.htSupported then
    phy.mcsList.flatMap (fun mode =>
      (widthsUpTo phy.channelWidth).flatMap (fun j =>
        if mode.modClass = ModClass.ht then
          let gi := if E.shortGiSupported then 400 else 800
          let nss := mode.mcsValue / 8 + 1
          [(phy.calcSnr mode nss j gi, mode, nss, j)]
        else
          let gi := if mode.modClass = ModClass.vht then
            (if E.shortGiSupported then 400 else 800) else E.guardIntervalNs
          (nssRange phy.maxSupportedTxSpatialStreams).filterMap (fun k =>
            if phy.isAllowed mode j k then
              some (phy.calcSnr mode k j gi, mode, k, j)
            else none)))
  else [])

/-- The `std::find_if` of `GetSnrThreshold`: first entry whose tx vector
agrees with the requested one on mode, NSS and channel width. -/
def findThreshold (thresholds : List (ℚ × WifiModeM × ℕ × ℕ))
    (mode : WifiModeM) (nss width : ℕ) : Option (ℚ × WifiModeM × ℕ × ℕ) :=
  thresholds.find? (fun p =>
    decide (mode = p.2.1) && decide (nss = p.2.2.1) && decide (width = p.2.2.2))

/-- Model of `AutoMcsWifiManager::GetSnrThreshold`: look the (mode, nss,
width) key up in the current table; on a miss rebuild the table once from
the physical layer's capability set and retry; a second miss fails the
`NS_ASSERT_MSG("SNR threshold not found")` — modelled as `none` — rather
than substituting a default.  The result carries the threshold found and
the table in effect afterwards. -/
def GetSnrThreshold (E : Env) (phy : Phy)
    (thresholds : List (ℚ × WifiModeM × ℕ × ℕ))
    (mode : WifiModeM) (nss width : ℕ) :
    Option (ℚ × List (ℚ × WifiModeM × ℕ × ℕ)) :=
  match findThreshold thresholds mode nss width with
  | some p => some (p.1, thresholds)
  | none =>
    match findThreshold (BuildSnrThresholds E phy) mode nss width with
    | some p => some (p.1, BuildSnrThresholds E phy)
    | none => none

/-- Concrete physical layer for the `GetSnrThreshold` witness: one legacy
mode whose required SNR is 5. -/
def phyW : Phy :=
  { modeList := [⟨ModClass.ofdm, 6⟩], mcsList := [], channelWidth := 20,
    maxSupportedTxSpatialStreams := 1,
    calcSnr := fun _ _ _ _ => 5,
    isAllowed := fun _ _ _ => true }

/-- The source's fixed RTS fallback mode `WifiMode("OfdmRate6Mbps")`. -/
def OfdmRate6Mbps : WifiModeM := ⟨ModClass.ofdm, 6⟩

/-- The combinations tested by `DoGetRtsTxVector`'s robust search: each
basic mode at NSS 1 and its non-HT width; the maximised quantity is the
required-SNR threshold itself, admitted when strictly below the raw last
observed SNR. -/
def rtsCands (E : Env) (st : Station) : List (SCand WifiModeM ℚ) :=
  E.basicModes.map (fun m =>
    { ok := decide (E.threshold m 1 (GetChannelWidthForNonHtMode m) <
        st.lastSnrObserved),
      rate := E.threshold m 1 (GetChannelWidthForNonHtMode m),
      payload := m })

/-- Model of `AutoMcsWifiManager::DoGetRtsTxVector`: with `autoMCS` off,
the accumulator loop over the basic rate set keeping the mode of highest
threshold still strictly below the last observed SNR (initial best 0,
initial mode `GetDefaultMode`), returned at NSS 1 and the mode's non-HT
width; with `autoMCS` on, always `OfdmRate6Mbps` at NSS 1 and
`GetTxBandwidth(OfdmRate6Mbps, GetChannelWidth(st))`. -/
def DoGetRtsTxVector (E : Env) (st : Station) : TxResult :=
  if !E.autoMCS then
    let sel := runSel (rtsCands E st) 0 E.defaultMode
    { mode := sel.2, nss := 1, width := GetChannelWidthForNonHtMode sel.2 }
  else
    { mode := OfdmRate6Mbps, nss := 1,
      width := E.txBandwidth OfdmRate6Mbps st.channelWidth }

/-- Model of `AutoMcsWifiManager::DoReportDataOk`: a zero reported SNR is
discarded without saving the report; otherwise the observation fields are
updated and, only when the last selected mode differs from the manager's
default mode, its MCS index is appended once to the selection history. -/
def DoReportDataOk (E : Env) (choosenMCS : List ℕ) (st : Station)
    (dataSnr : ℚ) (dataChannelWidth : ℕ) (dataNss : ℕ) : List ℕ × Station :=
  if dataSnr = 0 then (choosenMCS, st)
  else
    let st2 := { st with lastSnrObserved := dataSnr,
                         lastChannelWidthObserved := dataChannelWidth,
                         lastNssObserved := dataNss }
    if st.lastMode ≠ E.defaultMode then
      (choosenMCS ++ [st.lastMode.mcsValue], st2)
    else (choosenMCS, st2)

/-- Model of `AutoMcsWifiManager::DoReportAmpduTxStatus`: a zero reported
SNR is discarded without saving the report; otherwise the last selected
mode's MCS index is appended once per successful MPDU and the observation
fields are updated. -/
def DoReportAmpduTxStatus (choosenMCS : List ℕ) (st : Station)
    (nSuccessfulMpdus nFailedMpdus : ℕ) (dataSnr : ℚ)
    (dataChannelWidth : ℕ) (dataNss : ℕ) : List ℕ × Station :=
  if dataSnr = 0 then (choosenMCS, st)
  else
    (choosenMCS ++ List.replicate nSuccessfulMpdus st.lastMode.mcsValue,
     { st with lastSnrObserved := dataSnr,
               lastChannelWidthObserved := dataChannelWidth,
               lastNssObserved := dataNss })

/-- Claim C6.  `GetLastObservedSnr` rescales the raw observation `s`
linearly on the differing dimensions: by `w0/w` when the requested width
`w` differs from the observed width `w0`, by `n0/n` when the requested NSS
`n` differs from the observed NSS `n0`, and returns exactly `s` when both
match. -/
theorem getLastObservedSnr_rescale (st : Station) (w n : ℕ) :
    (w ≠ st.lastChannelWidthObserved → n ≠ st.lastNssObserved →
      GetLastObservedSnr st w n =
        st.lastSnrObserved * ((st.lastChannelWidthObserved : ℚ) / w) *
          ((st.lastNssObserved : ℚ) / n)) ∧
    (w ≠ st.lastChannelWidthObserved → n = st.lastNssObserved →
      GetLastObservedSnr st w n =
        st.lastSnrObserved * ((st.lastChannelWidthObserved : ℚ) / w)) ∧
    (w = st.lastChannelWidthObserved → n ≠ st.lastNssObserved →
      GetLastObservedSnr st w n =
        st.lastSnrObserved * ((st.lastNssObserved : ℚ) / n)) ∧
    (w = st.lastChannelWidthObserved → n = st.lastNssObserved →
      GetLastObservedSnr st w n = st.lastSnrObserved) := by
  refine ⟨?_, ?_, ?_, ?_⟩ <;> intro hw hn <;>
    simp only [GetLastObservedSnr, hw, hn, ne_eq, not_true_eq_false, if_true, if_false,
      ite_true, ite_false, not_false_eq_true] <;>
    simp only [div_div_eq_mul_div, mul_div_assoc]

/-- Witness for `getLastObservedSnr_rescale`: a station that observed SNR 40
at width 20 and NSS 1, queried at width 40 and NSS 2, yields 40·(20/40)·(1/2)
= 10. -/
theorem getLastObservedSnr_rescale_witness :
    GetLastObservedSnr
      { lastSnrObserved := 40, lastChannelWidthObserved := 20, lastNssObserved := 1,
        lastSnrCached := CACHE_INITIAL_VALUE, lastNss := 1,
        lastMode := ⟨ModClass.ofdm, 6⟩, lastChannelWidth := 0,
        mcsSupported := [], nonHtSupported := [], htSupported := false,
        vhtSupported := false, heSupported := false, shortGiSupported := false,
        guardIntervalNs := 800, nSupportedStreams := 1, channelWidth := 20 } 40 2 =
      40 * ((20 : ℚ) / 40) * ((1 : ℚ) / 2) := by
  have h := (getLastObservedSnr_rescale
    { lastSnrObserved := 40, lastChannelWidthObserved := 20, lastNssObserved := 1,
      lastSnrCached := CACHE_INITIAL_VALUE, lastNss := 1,
      lastMode := ⟨ModClass.ofdm, 6⟩, lastChannelWidth := 0,
      mcsSupported := [], nonHtSupported := [], htSupported := false,
      vhtSupported := false, heSupported := false, shortGiSupported := false,
      guardIntervalNs := 800, nSupportedStreams := 1, channelWidth := 20 } 40 2).1
  exact h (by decide) (by decide)

/-- Claim C7 counterexample.  The degenerate equal-position case
(`distance == 0`) returns the transmit power unchanged *before* the indoor
check, so with transmit power 16 dBm and one endpoint outdoor the computed
received power is 16, not 0, refuting the claim "for every pair of
positions at any distance". -/
theorem blocked_link_counterexample :
    ¬ (DoCalcRxPower (fun _ _ _ => 0) 16 0
        (some ⟨false, 0, 0, 0⟩) (some ⟨true, 0, 0, 0⟩) = 0) := by
  decide

/-- Claim C7 as amended.  For every path-loss formula, transmit power,
nonzero distance, and floor/room indices: if building metadata is attached
to both endpoints and one endpoint's indoor flag is false while the
other's is true, `DoCalcRxPower` returns exactly 0. -/
theorem blocked_link_amended (pathlossDb : ℚ → ℕ → ℕ → ℚ) (txPowerDbm : ℚ)
    (dist : ℚ) (hd : dist ≠ 0) (ai bi : MobilityBuildingInfo)
    (hmix : ai.indoor ≠ bi.indoor) :
    DoCalcRxPower pathlossDb txPowerDbm dist (some ai) (some bi) = 0 := by
  cases hA : ai.indoor <;> cases hB : bi.indoor <;>
    simp_all [DoCalcRxPower, hd]

/-- Witness for `blocked_link_amended`: at distance 3 with an outdoor and
an indoor endpoint the received power is 0. -/
theorem blocked_link_amended_witness :
    DoCalcRxPower (fun _ _ _ => 0) 16 3
      (some ⟨false, 2, 1, 0⟩) (some ⟨true, 0, 0, 0⟩) = 0 :=
  blocked_link_amended (fun _ _ _ => 0) 16 3 (by decide)
    ⟨false, 2, 1, 0⟩ ⟨true, 0, 0, 0⟩ (by decide)

theorem listMax_eq_none {β : Type} [LinearOrder β] {l : List β} :
    listMax l = none ↔ l = [] := by
  cases l <;> simp [listMax]

theorem listMax_le {β : Type} [LinearOrder β] :
    ∀ {l : List β} {m : β}, listMax l = some m → ∀ x ∈ l, x ≤ m := by
  intro l
  induction l with
  | nil => intro m h x hx; simp at hx
  | cons y ys ih =>
    intro m h x hx
    rw [show listMax (y :: ys) =
      some (match listMax ys with | none => y | some m => max y m) from rfl] at h
    rcases List.mem_cons.mp hx with hxy | hxs
    · subst hxy
      cases hys : listMax ys with
      | none => rw [hys] at h; simp at h; exact le_of_eq h
      | some m0 =>
        rw [hys] at h; simp at h
        exact h ▸ le_max_left x m0
    · cases hys : listMax ys with
      | none =>
        have hnil : ys = [] := listMax_eq_none.mp hys
        rw [hnil] at hxs; simp at hxs
      | some m0 =>
        rw [hys] at h; simp at h
        exact h ▸ le_trans (ih hys x hxs) (le_max_right y m0)

theorem mem_qualRates {α β : Type} {l : List (SCand α β)} {c : SCand α β}
    (hc : c ∈ l) (hok : c.ok = true) : c.rate ∈ qualRates l := by
  simp only [qualRates, List.mem_map, List.mem_filter]
  exact ⟨c, ⟨hc, hok⟩, rfl⟩

theorem runSel_no_update {α β : Type} [LinearOrder β] :
    ∀ {l : List (SCand α β)} {b : β},
      (∀ c ∈ l, c.ok = true → c.rate ≤ b) → ∀ cur, runSel l b cur = (b, cur) := by
  intro l
  induction l with
  | nil => intro b _ cur; rfl
  | cons c t ih =>
    intro b h cur
    have hnot : ¬(c.ok = true ∧ b < c.rate) := by
      rintro ⟨hok, hlt⟩
      exact absurd hlt (not_lt.mpr (h c (by simp) hok))
    rw [show runSel (c :: t) b cur =
      if c.ok ∧ b < c.rate then runSel t c.rate c.payload else runSel t b cur from rfl]
    rw [if_neg (by simpa using hnot)]
    exact ih (fun d hd => h d (by simp [hd])) cur

theorem runSel_spec {α β : Type} [LinearOrder β] :
    ∀ (l : List (SCand α β)) (b : β) (cur : α) (M : β),
      listMax (qualRates l) = some M → b < M →
      ∃ c, l.find? (fun c => c.ok && decide (c.rate = M)) = some c ∧
        runSel l b cur = (M, c.payload) := by
  intro l
  induction l with
  | nil => intro b cur M h hb; simp [qualRates, listMax] at h
  | cons c t ih =>
    intro b cur M h hb
    by_cases hok : c.ok = true
    · have hq : qualRates (c :: t) = c.rate :: qualRates t := by
        simp [qualRates, hok]
      rw [hq] at h
      rw [show listMax (c.rate :: qualRates t) =
        some (match listMax (qualRates t) with
              | none => c.rate | some m => max c.rate m) from rfl] at h
      cases hqt : listMax (qualRates t) with
      | none =>
        rw [hqt] at h; simp at h
        refine ⟨c, ?_, ?_⟩
        · simp [List.find?_cons, hok, h]
        · rw [show runSel (c :: t) b cur =
            if c.ok ∧ b < c.rate then runSel t c.rate c.payload
            else runSel t b cur from rfl]
          rw [if_pos ⟨hok, h ▸ hb⟩]
          have hempty : ∀ d ∈ t, d.ok = true → d.rate ≤ c.rate := by
            intro d hd hdok
            have hmem : d.rate ∈ qualRates t := mem_qualRates hd hdok
            rw [listMax_eq_none.mp hqt] at hmem
            simp at hmem
          rw [runSel_no_update hempty c.payload, h]
      | some m0 =>
        rw [hqt] at h; simp at h
        by_cases hcr : c.rate = M
        · refine ⟨c, ?_, ?_⟩
          · simp [List.find?_cons, hok, hcr]
          · rw [show runSel (c :: t) b cur =
              if c.ok ∧ b < c.rate then runSel t c.rate c.payload
              else runSel t b cur from rfl]
            rw [if_pos ⟨hok, hcr ▸ hb⟩]
            have hbound : ∀ d ∈ t, d.ok = true → d.rate ≤ c.rate := by
              intro d hd hdok
              have h1 : d.rate ≤ m0 := listMax_le hqt _ (mem_qualRates hd hdok)
              have h2 : m0 ≤ M := h ▸ le_max_right c.rate m0
              exact le_trans h1 (hcr ▸ h2)
            rw [runSel_no_update hbound c.payload, hcr]
        · have hm0 : listMax (qualRates t) = some M := by
            rcases max_choice c.rate m0 with hx | hx
            · exact absurd (hx.symm.trans h) hcr
            · rw [hqt]
              exact congrArg some (hx.symm.trans h)
          have hclt : c.rate < M :=
            lt_of_le_of_ne (h ▸ le_max_left c.rate m0) hcr
          have hfind : (c :: t).find? (fun d => d.ok && decide (d.rate = M)) =
              t.find? (fun d => d.ok && decide (d.rate = M)) := by
            simp [List.find?_cons, hcr]
          rw [show runSel (c :: t) b cur =
            if c.ok ∧ b < c.rate then runSel t c.rate c.payload
            else runSel t b cur from rfl]
          by_cases hblt : b < c.rate
          · rw [if_pos ⟨hok, hblt⟩]
            obtain ⟨d, hd1, hd2⟩ := ih c.rate c.payload M hm0 hclt
            exact ⟨d, hfind ▸ hd1, hd2⟩
          · rw [if_neg (by simp [hblt])]
            obtain ⟨d, hd1, hd2⟩ := ih b cur M hm0 hb
            exact ⟨d, hfind ▸ hd1, hd2⟩
    · have hq : qualRates (c :: t) = qualRates t := by
        simp [qualRates, hok]
      rw [hq] at h
      have hfind : (c :: t).find? (fun d => d.ok && decide (d.rate = M)) =
          t.find? (fun d => d.ok && decide (d.rate = M)) := by
        simp [List.find?_cons, hok]
      rw [show runSel (c :: t) b cur =
        if c.ok ∧ b < c.rate then runSel t c.rate c.payload
        else runSel t b cur from rfl]
      rw [if_neg (by simp [hok])]
      obtain ⟨d, hd1, hd2⟩ := ih b cur M h hb
      exact ⟨d, hfind ▸ hd1, hd2⟩

/-- Helper used by `specSelect_some`: the candidate found by `specSelect`
is admissible, is a member of the list, and the code's accumulator loop
started strictly below its value returns exactly this candidate. -/
theorem specSelect_some {α β : Type} [LinearOrder β] {l : List (SCand α β)}
    {c : SCand α β} (h : specSelect l = some c) (b : β) (cur : α)
    (hb : b < c.rate) :
    runSel l b cur = (c.rate, c.payload) ∧ c ∈ l ∧ c.ok = true := by
  unfold specSelect at h
  cases hm : listMax (qualRates l) with
  | none => rw [hm] at h; simp at h
  | some M =>
    rw [hm] at h
    simp only at h
    have hpred := List.find?_some h
    simp only [Bool.and_eq_true, decide_eq_true_eq] at hpred
    obtain ⟨hok, hrate⟩ := hpred
    have hmem := List.mem_of_find?_eq_some h
    obtain ⟨d, hd1, hd2⟩ := runSel_spec l b cur M hm (hrate ▸ hb)
    rw [h] at hd1
    have hdc : d = c := by injection hd1; simp_all
    rw [hdc] at hd2
    exact ⟨hrate ▸ hd2, hmem, hok⟩

theorem mem_candForMcs {E : Env} {st : Station} {cw : ℕ} {m : WifiModeM}
    {c : SCand (WifiModeM × ℕ × ℕ) ℕ} (hc : c ∈ candForMcs E st cw m) :
    ∃ nss gi, c = mkDataCand E st cw m nss gi := by
  unfold candForMcs at hc
  cases hmc : m.modClass <;> rw [hmc] at hc <;> simp only at hc
  case ht =>
    split_ifs at hc with h1 h2
    · simp at hc
    · simp at hc
    · rw [List.mem_singleton] at hc
      exact ⟨_, _, hc⟩
  all_goals
    split_ifs at hc with h1
    · simp at hc
    · obtain ⟨nss, hn, hf⟩ := List.mem_filterMap.mp hc
      split_ifs at hf with hv
      all_goals exact ⟨nss, _, (Option.some_inj.mp hf).symm⟩

theorem dataCands_feasible {E : Env} {st : Station} {cw : ℕ}
    {c : SCand (WifiModeM × ℕ × ℕ) ℕ} (hc : c ∈ dataCands E st cw)
    (hok : c.ok = true) :
    E.threshold c.payload.1 c.payload.2.1 c.payload.2.2 <
      GetLastObservedSnr st c.payload.2.2 c.payload.2.1 := by
  unfold dataCands at hc
  split_ifs at hc with hht
  · obtain ⟨m, hm, hcm⟩ := List.mem_flatMap.mp hc
    obtain ⟨nss, gi, rfl⟩ := mem_candForMcs hcm
    simp only [mkDataCand, decide_eq_true_eq] at hok ⊢
    exact hok
  · obtain ⟨m, hm, rfl⟩ := List.mem_map.mp hc
    simp only [mkDataCand, decide_eq_true_eq] at hok ⊢
    exact hok

/-- Claim C1.  For a warm-up-phase request (time below 10 s) that is not a
cache hit, `DoGetDataTxVector` runs its accumulator loop over the single
deterministic enumeration `dataCands` (non-HT modes only when HT is not
supported on both sides, otherwise modes in ascending index with NSS
ascending from 1 for VHT/HE modes), admitting only combinations whose
threshold is strictly below the estimated SNR for that width/NSS, and
returns the first-encountered qualifying candidate with the highest data
rate (`specSelect`, the spec-side definition), recording the chosen mode,
NSS and the observation that produced them into the link's cache.  The
hypothesis `0 < c.rate` reflects that ns-3 data rates are positive. -/
theorem doGetDataTxVector_warmup_search_spec (E : Env) (choosenMCS : List ℕ)
    (st : Station) (allowedWidth : ℕ) (nowSeconds : ℚ)
    (c : SCand (WifiModeM × ℕ × ℕ) ℕ)
    (hnow : nowSeconds < 10)
    (hmiss : cacheHit st (min st.channelWidth allowedWidth) = false)
    (hsel : specSelect (dataCands E st (min st.channelWidth allowedWidth)) = some c)
    (hpos : 0 < c.rate) :
    ∃ st2,
      DoGetDataTxVector E choosenMCS st allowedWidth nowSeconds =
        some ({ mode := c.payload.1, nss := c.payload.2.1,
                width := E.txBandwidth c.payload.1 (min st.channelWidth allowedWidth) },
              st2) ∧
      st2.lastSnrCached = st.lastSnrObserved ∧ st2.lastMode = c.payload.1 ∧
      st2.lastNss = c.payload.2.1 ∧
      st2.lastChannelWidth = min st.channelWidth allowedWidth := by
  obtain ⟨hrun, hmem, hok⟩ := specSelect_some hsel 0
    (E.defaultModeForSta, 1, min st.channelWidth allowedWidth) hpos
  simp only [DoGetDataTxVector]
  rw [if_pos hnow, if_neg (by rw [hmiss]; simp), hrun]
  exact ⟨_, rfl, rfl, rfl, rfl, rfl⟩

/-- Witness for `doGetDataTxVector_warmup_search_spec`: in `envW`/`staW`
the search admits both legacy modes (thresholds 1 and 4 below SNR 10) and
picks the 12 Mb/s mode, caching it with the observed SNR 10. -/
theorem doGetDataTxVector_warmup_search_spec_witness :
    ∃ st2,
      DoGetDataTxVector envW [] staW 20 0 =
        some ({ mode := ⟨ModClass.ofdm, 12⟩, nss := 1,
                width := envW.txBandwidth ⟨ModClass.ofdm, 12⟩ (min staW.channelWidth 20) },
              st2) ∧
      st2.lastSnrCached = staW.lastSnrObserved ∧ st2.lastMode = ⟨ModClass.ofdm, 12⟩ ∧
      st2.lastNss = 1 ∧
      st2.lastChannelWidth = min staW.channelWidth 20 :=
  doGetDataTxVector_warmup_search_spec envW [] staW 20 0
    (mkDataCand envW staW 20 ⟨ModClass.ofdm, 12⟩ 1 800)
    (by norm_num) (by decide) (by decide) (by decide)

/-- Claim C3 counterexample.  When no candidate qualifies (here: observed
SNR 0 below both thresholds), the warm-up search returns the fallback
`GetDefaultModeForSta` mode, whose threshold (1) is *not* strictly below
the SNR estimate (0) that was used during the selection, refuting the
claim for every warm-up-phase selection. -/
theorem warmup_feasibility_counterexample :
    DoGetDataTxVector envW [] staX 20 0 =
      some ({ mode := ⟨ModClass.ofdm, 6⟩, nss := 1, width := 20 },
            { staX with lastSnrCached := 0, lastMode := ⟨ModClass.ofdm, 6⟩,
                        lastNss := 1, lastChannelWidth := 20 }) ∧
    ¬(envW.threshold ⟨ModClass.ofdm, 6⟩ 1 20 < GetLastObservedSnr staX 20 1) := by
  exact ⟨by decide, by decide⟩

/-- Claim C3 as amended.  Whenever a warm-up-phase request misses the cache
and the search admits at least one qualifying candidate, the selected mode
and NSS come from a candidate whose required-SNR threshold is strictly
below the SNR estimate used to select it. -/
theorem warmup_feasibility_of_candidate (E : Env) (choosenMCS : List ℕ)
    (st : Station) (allowedWidth : ℕ) (nowSeconds : ℚ)
    (c : SCand (WifiModeM × ℕ × ℕ) ℕ)
    (hnow : nowSeconds < 10)
    (hmiss : cacheHit st (min st.channelWidth allowedWidth) = false)
    (hsel : specSelect (dataCands E st (min st.channelWidth allowedWidth)) = some c)
    (hpos : 0 < c.rate) :
    ∃ r st2,
      DoGetDataTxVector E choosenMCS st allowedWidth nowSeconds = some (r, st2) ∧
      r.mode = c.payload.1 ∧ r.nss = c.payload.2.1 ∧
      E.threshold c.payload.1 c.payload.2.1 c.payload.2.2 <
        GetLastObservedSnr st c.payload.2.2 c.payload.2.1 := by
  obtain ⟨hrun, hmem, hok⟩ := specSelect_some hsel 0
    (E.defaultModeForSta, 1, min st.channelWidth allowedWidth) hpos
  have hfeas := dataCands_feasible hmem hok
  simp only [DoGetDataTxVector]
  rw [if_pos hnow, if_neg (by rw [hmiss]; simp), hrun]
  exact ⟨_, _, rfl, rfl, rfl, hfeas⟩

/-- Witness for `warmup_feasibility_of_candidate`: the winning 12 Mb/s
candidate of `envW`/`staW` has threshold 4 below the estimate 10. -/
theorem warmup_feasibility_of_candidate_witness :
    ∃ r st2,
      DoGetDataTxVector envW [] staW 40 0 = some (r, st2) ∧
      r.mode = ⟨ModClass.ofdm, 12⟩ ∧ r.nss = 1 ∧
      envW.threshold ⟨ModClass.ofdm, 12⟩ 1 20 < GetLastObservedSnr staW 20 1 :=
  warmup_feasibility_of_candidate envW [] staW 40 0
    (mkDataCand envW staW 20 ⟨ModClass.ofdm, 12⟩ 1 800)
    (by norm_num) (by decide) (by decide) (by decide)

/-- Helper: after any warm-up-phase request the station's cached SNR equals
its (unchanged) observed SNR, the cached width equals the used width, the
capabilities are unchanged, and the cached mode/NSS are the returned
ones — on the hit path because the hit condition already required it, on
the search path because the search records them. -/
theorem doGetDataTxVector_warmup_post (E : Env) (choosenMCS : List ℕ)
    (st : Station) (allowedWidth : ℕ) (nowSeconds : ℚ) (hnow : nowSeconds < 10) :
    ∃ r1 st1, DoGetDataTxVector E choosenMCS st allowedWidth nowSeconds = some (r1, st1) ∧
      st1.lastSnrObserved = st.lastSnrObserved ∧
      st1.lastSnrObserved = st1.lastSnrCached ∧
      st1.lastChannelWidth = min st.channelWidth allowedWidth ∧
      st1.channelWidth = st.channelWidth ∧
      st1.lastMode = r1.mode ∧ st1.lastNss = r1.nss := by
  by_cases hhit : cacheHit st (min st.channelWidth allowedWidth) = true
  · have hc := hhit
    unfold cacheHit at hc
    simp only [Bool.and_eq_true, decide_eq_true_eq] at hc
    refine ⟨{ mode := st.lastMode, nss := st.lastNss,
              width := E.txBandwidth st.lastMode (min st.channelWidth allowedWidth) },
            { st with lastChannelWidth := min st.channelWidth allowedWidth },
            ?_, rfl, hc.1.2, rfl, rfl, rfl, rfl⟩
    simp only [DoGetDataTxVector]
    rw [if_pos hnow, if_pos hhit]
  · refine ⟨{ mode := (runSel (dataCands E st (min st.channelWidth allowedWidth)) 0
                (E.defaultModeForSta, 1, min st.channelWidth allowedWidth)).2.1,
              nss := (runSel (dataCands E st (min st.channelWidth allowedWidth)) 0
                (E.defaultModeForSta, 1, min st.channelWidth allowedWidth)).2.2.1,
              width := E.txBandwidth
                (runSel (dataCands E st (min st.channelWidth allowedWidth)) 0
                  (E.defaultModeForSta, 1, min st.channelWidth allowedWidth)).2.1
                (min st.channelWidth allowedWidth) },
            { st with lastSnrCached := st.lastSnrObserved,
                      lastMode := (runSel (dataCands E st (min st.channelWidth allowedWidth)) 0
                        (E.defaultModeForSta, 1, min st.channelWidth allowedWidth)).2.1,
                      lastNss := (runSel (dataCands E st (min st.channelWidth allowedWidth)) 0
                        (E.defaultModeForSta, 1, min st.channelWidth allowedWidth)).2.2.1,
                      lastChannelWidth := min st.channelWidth allowedWidth },
            ?_, rfl, rfl, rfl, rfl, rfl, rfl⟩
    simp only [DoGetDataTxVector]
    rw [if_pos hnow, if_neg hhit]

/-- Claim C5.  Two consecutive warm-up-phase requests for the same link
with an unchanged observation and unchanged requested width return
identical mode and NSS, and the second request is a cache hit (which
requires the cached SNR to differ from the sentinel — guaranteed here by
the observed SNR differing from the sentinel value — the observed SNR to
equal the cached SNR exactly, and the requested width to equal the cached
width). -/
theorem doGetDataTxVector_cache_idempotent (E : Env) (choosen1 choosen2 : List ℕ)
    (st : Station) (allowedWidth : ℕ) (now1 now2 : ℚ)
    (h1 : now1 < 10) (h2 : now2 < 10)
    (hobs : st.lastSnrObserved ≠ CACHE_INITIAL_VALUE) :
    ∃ r1 st1 r2 st2,
      DoGetDataTxVector E choosen1 st allowedWidth now1 = some (r1, st1) ∧
      DoGetDataTxVector E choosen2 st1 allowedWidth now2 = some (r2, st2) ∧
      r2.mode = r1.mode ∧ r2.nss = r1.nss ∧
      cacheHit st1 (min st1.channelWidth allowedWidth) = true := by
  obtain ⟨r1, st1, hcall1, ho, hoc, hw, hcw, hm, hn⟩ :=
    doGetDataTxVector_warmup_post E choosen1 st allowedWidth now1 h1
  have hhit2 : cacheHit st1 (min st1.channelWidth allowedWidth) = true := by
    unfold cacheHit
    simp only [Bool.and_eq_true, decide_eq_true_eq]
    refine ⟨⟨?_, hoc⟩, ?_⟩
    · rw [← hoc, ho]; exact hobs
    · rw [hcw, hw]
  refine ⟨r1, st1,
    { mode := st1.lastMode, nss := st1.lastNss,
      width := E.txBandwidth st1.lastMode (min st1.channelWidth allowedWidth) },
    { st1 with lastChannelWidth := min st1.channelWidth allowedWidth },
    hcall1, ?_, hm, hn, hhit2⟩
  simp only [DoGetDataTxVector]
  rw [if_pos h2, if_pos hhit2]

/-- Witness for `doGetDataTxVector_cache_idempotent`: two consecutive
requests at times 0 and 1 for `envW`/`staW`. -/
theorem doGetDataTxVector_cache_idempotent_witness :
    ∃ r1 st1 r2 st2,
      DoGetDataTxVector envW [] staW 20 0 = some (r1, st1) ∧
      DoGetDataTxVector envW [] st1 20 1 = some (r2, st2) ∧
      r2.mode = r1.mode ∧ r2.nss = r1.nss ∧
      cacheHit st1 (min st1.channelWidth 20) = true :=
  doGetDataTxVector_cache_idempotent envW [] [] staW 20 0 1
    (by norm_num) (by norm_num) (by decide)

/-- Claim C2.  At or after the 10-second threshold `DoGetDataTxVector`
performs no candidate search and returns, for every link state, the HE
mode whose MCS index is the arithmetic mean of the recorded MCS indices
rounded up to the nearest integer, independent of the link's observed or
cached SNR (the station appears in the result only through the channel
width bookkeeping).  The hypothesis `hle` reflects that recorded MCS
indices never exceed 11, so the rounded mean names an existing HE mode. -/
theorem doGetDataTxVector_converged_spec (E : Env) (choosenMCS : List ℕ)
    (st : Station) (allowedWidth : ℕ) (nowSeconds : ℚ)
    (hnow : ¬nowSeconds < 10) (hne : choosenMCS ≠ [])
    (hle : Int.ceil ((choosenMCS.sum : ℚ) / (choosenMCS.length : ℚ)) ≤ 11) :
    DoGetDataTxVector E choosenMCS st allowedWidth nowSeconds =
      some ({ mode := ⟨ModClass.he,
                (Int.ceil ((choosenMCS.sum : ℚ) / (choosenMCS.length : ℚ))).toNat⟩,
              nss := 1,
              width := E.txBandwidth
                ⟨ModClass.he,
                  (Int.ceil ((choosenMCS.sum : ℚ) / (choosenMCS.length : ℚ))).toNat⟩
                (min st.channelWidth allowedWidth) },
            { st with lastChannelWidth := min st.channelWidth allowedWidth }) := by
  have hlen : ¬choosenMCS.length = 0 := by simpa using hne
  have hge : 0 ≤ Int.ceil ((choosenMCS.sum : ℚ) / (choosenMCS.length : ℚ)) :=
    Int.ceil_nonneg (div_nonneg (by positivity) (by positivity))
  have hcm : convergedMode choosenMCS =
      some ⟨ModClass.he,
        (Int.ceil ((choosenMCS.sum : ℚ) / (choosenMCS.length : ℚ))).toNat⟩ := by
    simp only [convergedMode, hlen, if_false]
    rw [if_pos ⟨hge, hle⟩]
  simp only [DoGetDataTxVector]
  rw [if_neg hnow, hcm]

/-- Witness for `doGetDataTxVector_converged_spec`: after 50 recorded
selections all at MCS 7, the converged-phase selection at time 10 is the
HE mode at MCS 7 (the mean of a constant sequence is that constant). -/
theorem doGetDataTxVector_converged_spec_witness :
    DoGetDataTxVector envW (List.replicate 50 7) staW 20 10 =
      some ({ mode := ⟨ModClass.he,
                (Int.ceil ((((List.replicate 50 7 : List ℕ)).sum : ℚ) /
                  ((List.replicate 50 7).length : ℚ))).toNat⟩,
              nss := 1,
              width := envW.txBandwidth
                ⟨ModClass.he,
                  (Int.ceil ((((List.replicate 50 7 : List ℕ)).sum : ℚ) /
                    ((List.replicate 50 7).length : ℚ))).toNat⟩
                (min staW.channelWidth 20) },
            { staW with lastChannelWidth := min staW.channelWidth 20 }) ∧
    (Int.ceil ((((List.replicate 50 7 : List ℕ)).sum : ℚ) /
      ((List.replicate 50 7).length : ℚ))).toNat = 7 := by
  have hceil : Int.ceil ((((List.replicate 50 7 : List ℕ)).sum : ℚ) /
      ((List.replicate 50 7).length : ℚ)) = 7 := by
    norm_num [List.sum_replicate, List.length_replicate]
  refine ⟨doGetDataTxVector_converged_spec envW (List.replicate 50 7) staW 20 10
    (by norm_num) (by simp) (by rw [hceil]; norm_num), by rw [hceil]; rfl⟩

/-- Claim C10.  The converged-phase computation divides by the history
length with no emptiness guard: at or after the 10-second threshold with
an empty `choosenMCS` the division is 0/0 (IEEE NaN, whose ceiling and
int cast name no valid MCS), so the request has no well-defined result —
the model returns `none` — while any nonempty history with in-range mean
yields a defined result (`doGetDataTxVector_converged_spec`). -/
theorem converged_empty_history_undefined (E : Env) (st : Station)
    (allowedWidth : ℕ) (nowSeconds : ℚ) (hnow : ¬nowSeconds < 10) :
    DoGetDataTxVector E [] st allowedWidth nowSeconds = none := by
  simp only [DoGetDataTxVector]
  rw [if_neg hnow]
  rfl

/-- Witness for `converged_empty_history_undefined` at time 10. -/
theorem converged_empty_history_undefined_witness :
    DoGetDataTxVector envW [] staW 20 10 = none :=
  converged_empty_history_undefined envW staW 20 10 (by norm_num)

/-- Claim C4.  A lookup that hits the table rebuilds nothing; a first miss
triggers exactly one full rebuild from the physical layer's capability set
after which the lookup is retried, and the outcome is entirely determined
by that single rebuilt table: a hit there returns its threshold (with the
rebuilt table in effect), and a second miss is the fatal assertion
(`none`), never a substituted default. -/
theorem getSnrThreshold_rebuild_spec (E : Env) (phy : Phy)
    (thresholds : List (ℚ × WifiModeM × ℕ × ℕ))
    (mode : WifiModeM) (nss width : ℕ) :
    (∀ p, findThreshold thresholds mode nss width = some p →
      GetSnrThreshold E phy thresholds mode nss width = some (p.1, thresholds)) ∧
    (findThreshold thresholds mode nss width = none →
      GetSnrThreshold E phy thresholds mode nss width =
        (findThreshold (BuildSnrThresholds E phy) mode nss width).map
          (fun p => (p.1, BuildSnrThresholds E phy))) := by
  constructor
  · intro p hp
    unfold GetSnrThreshold
    rw [hp]
  · intro hmiss
    unfold GetSnrThreshold
    rw [hmiss]
    cases h2 : findThreshold (BuildSnrThresholds E phy) mode nss width <;> simp

/-- Witness for `getSnrThreshold_rebuild_spec`: starting from an empty
table, the first miss rebuilds and the retry finds threshold 5 in the
rebuilt table. -/
theorem getSnrThreshold_rebuild_spec_witness :
    GetSnrThreshold envW phyW [] ⟨ModClass.ofdm, 6⟩ 1 20 =
      (findThreshold (BuildSnrThresholds envW phyW) ⟨ModClass.ofdm, 6⟩ 1 20).map
        (fun p => (p.1, BuildSnrThresholds envW phyW)) ∧
    GetSnrThreshold envW phyW [] ⟨ModClass.ofdm, 6⟩ 1 20 =
      some (5, BuildSnrThresholds envW phyW) :=
  ⟨(getSnrThreshold_rebuild_spec envW phyW [] ⟨ModClass.ofdm, 6⟩ 1 20).2 (by decide),
   by decide⟩

/-- Claim C8.  With the `autoMCS` flag off, `DoGetRtsTxVector` returns,
from the basic rate set, the mode with the highest required-SNR threshold
that is still strictly below the link's last observed SNR (first found on
ties; `specSelect` over `rtsCands` is the spec-side description, and the
positivity hypothesis reflects that real thresholds exceed the loop's
initial best 0), at NSS 1 and the mode's non-HT channel width; with the
flag on it always returns the fixed low mode `OfdmRate6Mbps`,
independent of the observed SNR. -/
theorem doGetRtsTxVector_spec (E : Env) (st : Station) :
    (E.autoMCS = false → ∀ c : SCand WifiModeM ℚ,
      specSelect (rtsCands E st) = some c → 0 < c.rate →
      DoGetRtsTxVector E st =
        { mode := c.payload, nss := 1,
          width := GetChannelWidthForNonHtMode c.payload }) ∧
    (E.autoMCS = true →
      DoGetRtsTxVector E st =
        { mode := OfdmRate6Mbps, nss := 1,
          width := E.txBandwidth OfdmRate6Mbps st.channelWidth }) := by
  constructor
  · intro hflag c hsel hpos
    obtain ⟨hrun, hmem, hok⟩ := specSelect_some hsel 0 E.defaultMode hpos
    simp only [DoGetRtsTxVector, hflag, Bool.not_false, if_true, hrun]
  · intro hflag
    simp [DoGetRtsTxVector, hflag]

/-- Witness for `doGetRtsTxVector_spec`: with the flag off `envW`'s robust
search picks the basic mode of threshold 4 (the highest below SNR 10); with
the flag on the result is the fixed `OfdmRate6Mbps`. -/
theorem doGetRtsTxVector_spec_witness :
    DoGetRtsTxVector envW staW =
      { mode := ⟨ModClass.ofdm, 12⟩, nss := 1,
        width := GetChannelWidthForNonHtMode ⟨ModClass.ofdm, 12⟩ } ∧
    DoGetRtsTxVector { envW with autoMCS := true } staW =
      { mode := OfdmRate6Mbps, nss := 1,
        width := { envW with autoMCS := true }.txBandwidth OfdmRate6Mbps
          staW.channelWidth } :=
  ⟨(doGetRtsTxVector_spec envW staW).1 rfl
      ⟨true, 4, ⟨ModClass.ofdm, 12⟩⟩ (by decide) (by decide),
   (doGetRtsTxVector_spec { envW with autoMCS := true } staW).2 rfl⟩

/-- Claim C9 counterexample.  A successful single-frame report with
nonzero SNR whose last selected mode equals the manager's default mode
appends nothing (the source guards on `m_lastMode != GetDefaultMode()`),
and an A-MPDU status report with three successful MPDUs but a zero
reported SNR appends nothing (the zero-SNR discard), refuting "appended
once per successful sub-frame" for every report. -/
theorem selection_history_counterexample :
    (DoReportDataOk envW [] staW 5 20 1).1 ≠ [staW.lastMode.mcsValue] ∧
    staW.lastMode = envW.defaultMode ∧
    (DoReportAmpduTxStatus [] staW 3 0 0 20 1).1 ≠
      List.replicate 3 staW.lastMode.mcsValue := by
  refine ⟨by decide, by decide, by decide⟩

/-- Claim C9 as amended.  Provided the reported data SNR is nonzero, the
last selected mode's MCS index is appended exactly once per successful
sub-frame — once for a single data frame when additionally the last
selected mode differs from the manager's default mode (a default-mode
single-frame report appends nothing), and once per successful MPDU for an
aggregated report (with no default-mode condition); zero-SNR reports
append nothing. -/
theorem selection_history_amended (E : Env) (choosenMCS : List ℕ) (st : Station)
    (dataSnr : ℚ) (w nssUsed nSucc nFail : ℕ) :
    (dataSnr ≠ 0 → st.lastMode ≠ E.defaultMode →
      (DoReportDataOk E choosenMCS st dataSnr w nssUsed).1 =
        choosenMCS ++ [st.lastMode.mcsValue]) ∧
    (dataSnr ≠ 0 → st.lastMode = E.defaultMode →
      (DoReportDataOk E choosenMCS st dataSnr w nssUsed).1 = choosenMCS) ∧
    (dataSnr = 0 →
      (DoReportDataOk E choosenMCS st dataSnr w nssUsed).1 = choosenMCS) ∧
    (dataSnr ≠ 0 →
      (DoReportAmpduTxStatus choosenMCS st nSucc nFail dataSnr w nssUsed).1 =
        choosenMCS ++ List.replicate nSucc st.lastMode.mcsValue) ∧
    (dataSnr = 0 →
      (DoReportAmpduTxStatus choosenMCS st nSucc nFail dataSnr w nssUsed).1 =
        choosenMCS) := by
  refine ⟨?_, ?_, ?_, ?_, ?_⟩
  · intro hs hm
    simp [DoReportDataOk, hs, hm]
  · intro hs hm
    simp [DoReportDataOk, hs, hm]
  · intro hs
    simp [DoReportDataOk, hs]
  · intro hs
    simp [DoReportAmpduTxStatus, hs]
  · intro hs
    simp [DoReportAmpduTxStatus, hs]

/-- Witness for `selection_history_amended`: with last selected mode of
MCS code 12 (different from the default) and SNR 5, a single-frame report
appends one entry. -/
theorem selection_history_amended_witness :
    (DoReportDataOk envW []
      { staW with lastMode := ⟨ModClass.ofdm, 12⟩ } 5 20 1).1 =
      [] ++ [({ staW with lastMode := ⟨ModClass.ofdm, 12⟩ } : Station).lastMode.mcsValue] :=
  (selection_history_amended envW []
    { staW with lastMode := ⟨ModClass.ofdm, 12⟩ } 5 20 1 3 0).1
    (by decide) (by decide)
